import Mathlib

/-!
Verification of the sedona-bench harness (q2.py, q4.py, q8.py, q9.py, q10.py, q11.py).

Each script follows the same protocol: configure the engine (GPU/CPU mode, optional
target partitions), register one external table per table role, build one geometry
view per role (with an optional textually-interpolated LIMIT clause), show the
EXPLAIN plan once, then run the benchmark query `repeat` times inside a single
wall-clock timing window and report `(end - start) / repeat`.

The development below embeds, directly from the Python sources:
  * the step trace each script issues against the engine handle (`benchTrace`),
  * the wall-clock timing computation of the timed loop (`reportedMean`),
  * the truthiness-based LIMIT-clause construction (`limit_clause`, `viewRows`),
  * the Q8 driver's positional argument binding (`q8_driver_call`),
  * the exception semantics of the timed loop (`timedRun`, `executedIters`),
  * the relational semantics of the Q9, Q4 and Q10 SQL texts over finite data.
-/

namespace SedonaBench

/-! ### Table roles and engine-handle step traces -/

/-- Table roles used by the six scripts (zone_table / trip_table / building_table). -/
inductive Role where
  | zone
  | trip
  | building
  deriving DecidableEq, Repr

/-- One directive issued against the engine handle (`ctx.sql(...)` call), classified
by its place in the protocol. `timedQuery i` is the i-th iteration of the timed loop. -/
inductive Step where
  | setConfig (directive : String)
  | createTable (r : Role)
  | createView (r : Role)
  | explain
  | timedQuery (i : Nat)
  deriving DecidableEq, Repr

/-- The run options shared by all six scripts that are relevant to the step trace:
execution mode, repeat count, optional target-partition override. -/
structure RunOptions where
  mode_is_gpu : Bool
  repeat_count : Nat
  target_partitions : Option Nat
  deriving DecidableEq, Repr

/-- Configuration directives: exactly one mode-setting directive, then one
partition-count directive iff `target_partitions` is set (mirrors the
`if mode.lower() == 'gpu' ... / if target_partitions is not None ...` blocks). -/
def configSteps (o : RunOptions) : List Step :=
  [Step.setConfig (if o.mode_is_gpu then "SET sedona.spatial_join.gpu.enable = true"
                   else "SET sedona.spatial_join.gpu.enable = false")] ++
  (match o.target_partitions with
   | Option.some p => [Step.setConfig ("SET datafusion.execution.target_partitions = " ++ toString p)]
   | Option.none => [])

/-- Setup portion of a script's trace: configuration, then one CREATE EXTERNAL TABLE
per role, then one CREATE OR REPLACE VIEW per role, then the single EXPLAIN. -/
def setupTrace (roles : List Role) (o : RunOptions) : List Step :=
  configSteps o ++ roles.map Step.createTable ++ roles.map Step.createView ++ [Step.explain]

/-- The timed loop's trace: `repeat` query submissions (`for _ in range(repeat)`). -/
def timedTrace (o : RunOptions) : List Step :=
  (List.range o.repeat_count).map Step.timedQuery

/-- Full trace of directives a script issues: setup followed by the timed loop. -/
def benchTrace (roles : List Role) (o : RunOptions) : List Step :=
  setupTrace roles o ++ timedTrace o

/-- Trace of q2.py (roles zone, trip). -/
def q2Trace (o : RunOptions) : List Step := benchTrace [Role.zone, Role.trip] o

/-- Trace of q4.py (roles zone, trip). -/
def q4Trace (o : RunOptions) : List Step := benchTrace [Role.zone, Role.trip] o

/-- Trace of q8.py (roles building, trip). -/
def q8Trace (o : RunOptions) : List Step := benchTrace [Role.building, Role.trip] o

/-- Trace of q9.py (single role building, self-join). -/
def q9Trace (o : RunOptions) : List Step := benchTrace [Role.building] o

/-- Trace of q10.py (roles zone, trip). -/
def q10Trace (o : RunOptions) : List Step := benchTrace [Role.zone, Role.trip] o

/-- Trace of q11.py (roles zone, trip). -/
def q11Trace (o : RunOptions) : List Step := benchTrace [Role.zone, Role.trip] o

/-! ### Wall-clock timing model

Each step takes some wall-clock duration `d : Step → ℚ`. The script captures
`start_time = time.time()` immediately after the setup steps, runs the timed loop,
and reports `elapsed = (time.time() - start_time) / repeat`. -/

/-- Value of the wall clock after executing `steps` (starting from clock 0):
the sum of the individual step durations. -/
def clockAfter (d : Step → ℚ) (steps : List Step) : ℚ :=
  (steps.map d).sum

/-- The mean latency a script reports: `(time.time() - start_time) / repeat`, where
`start_time` is the clock after the setup steps and the final reading is the clock
after the whole trace. -/
def reportedMean (d : Step → ℚ) (roles : List Role) (o : RunOptions) : ℚ :=
  (clockAfter d (benchTrace roles o) - clockAfter d (setupTrace roles o)) / (o.repeat_count : ℚ)

/-- Boolean test for a table-registration step. -/
def isCreateTable : Step → Bool
  | Step.createTable _ => true
  | _ => false

/-- Boolean test for a view-construction step. -/
def isCreateView : Step → Bool
  | Step.createView _ => true
  | _ => false

/-- Boolean test for the plan-inspection step. -/
def isExplain : Step → Bool
  | Step.explain => true
  | _ => false

/-- Boolean test for a timed query iteration. -/
def isTimedQuery : Step → Bool
  | Step.timedQuery _ => true
  | _ => false

lemma clockAfter_append (d : Step → ℚ) (a b : List Step) :
    clockAfter d (a ++ b) = clockAfter d a + clockAfter d b := by
  simp [clockAfter]

lemma reportedMean_eq_sum_div (d : Step → ℚ) (roles : List Role) (o : RunOptions) :
    reportedMean d roles o
      = ((List.range o.repeat_count).map (fun i => d (Step.timedQuery i))).sum
          / (o.repeat_count : ℚ) := by
  unfold reportedMean benchTrace
  rw [clockAfter_append]
  simp [timedTrace, clockAfter, List.map_map, Function.comp_def]

lemma configSteps_shape (o : RunOptions) : ∀ s ∈ configSteps o, ∃ c, s = Step.setConfig c := by
  intro s hs
  unfold configSteps at hs
  rcases hpt : o.target_partitions with _ | p <;> simp [hpt] at hs
  · exact ⟨_, hs⟩
  · rcases hs with hs | hs <;> exact ⟨_, hs⟩

lemma pairwise_of_parts {α : Type} {R : α → α → Prop} {A B : List α}
    (hA : ∀ a ∈ A, ∀ b, R a b) (hB : ∀ b ∈ B, ∀ a, R a b) : (A ++ B).Pairwise R := by
  rw [List.pairwise_append]
  exact ⟨List.pairwise_of_forall_mem_list (fun a ha b _ => hA a ha b),
         List.pairwise_of_forall_mem_list (fun a _ b hb => hB b hb a),
         fun a ha b _ => hA a ha b⟩

lemma benchTrace_countP_table (roles : List Role) (o : RunOptions) :
    (benchTrace roles o).countP isCreateTable = roles.length := by
  unfold benchTrace setupTrace timedTrace configSteps
  rcases o.target_partitions with _ | p <;>
    simp [List.countP_append, List.countP_map, isCreateTable, Function.comp_def, List.countP_eq_length]

lemma benchTrace_countP_view (roles : List Role) (o : RunOptions) :
    (benchTrace roles o).countP isCreateView = roles.length := by
  unfold benchTrace setupTrace timedTrace configSteps
  rcases o.target_partitions with _ | p <;>
    simp [List.countP_append, List.countP_map, isCreateView, Function.comp_def, List.countP_eq_length]

lemma benchTrace_countP_explain (roles : List Role) (o : RunOptions) :
    (benchTrace roles o).countP isExplain = 1 := by
  unfold benchTrace setupTrace timedTrace configSteps
  rcases o.target_partitions with _ | p <;>
    simp [List.countP_append, List.countP_map, isExplain, Function.comp_def]

lemma benchTrace_tables_before_views (roles : List Role) (o : RunOptions) :
    (benchTrace roles o).Pairwise
      (fun a b => ¬(isCreateView a = true ∧ isCreateTable b = true)) := by
  have hsplit : benchTrace roles o
      = (configSteps o ++ roles.map Step.createTable)
        ++ (roles.map Step.createView ++ [Step.explain] ++ timedTrace o) := by
    unfold benchTrace setupTrace
    simp
  rw [hsplit]
  apply pairwise_of_parts
  · intro a ha b
    rcases List.mem_append.mp ha with h | h
    · obtain ⟨c, rfl⟩ := configSteps_shape o a h
      simp [isCreateView]
    · obtain ⟨r, _, rfl⟩ := List.mem_map.mp h
      simp [isCreateView]
  · intro b hb a
    rcases List.mem_append.mp hb with h | h
    · rcases List.mem_append.mp h with h2 | h2
      · obtain ⟨r, _, rfl⟩ := List.mem_map.mp h2
        simp [isCreateTable]
      · simp at h2
        subst h2
        simp [isCreateTable]
    · obtain ⟨i, _, rfl⟩ := List.mem_map.mp h
      simp [isCreateTable]

lemma benchTrace_explain_before_queries (roles : List Role) (o : RunOptions) :
    (benchTrace roles o).Pairwise
      (fun a b => ¬(isTimedQuery a = true ∧ isExplain b = true)) := by
  unfold benchTrace
  apply pairwise_of_parts
  · intro a ha b
    unfold setupTrace at ha
    rcases List.mem_append.mp ha with h | h
    · rcases List.mem_append.mp h with h2 | h2
      · rcases List.mem_append.mp h2 with h3 | h3
        · obtain ⟨c, rfl⟩ := configSteps_shape o a h3
          simp [isTimedQuery]
        · obtain ⟨r, _, rfl⟩ := List.mem_map.mp h3
          simp [isTimedQuery]
      · obtain ⟨r, _, rfl⟩ := List.mem_map.mp h2
        simp [isTimedQuery]
    · simp at h
      subst h
      simp [isTimedQuery]
  · intro b hb a
    obtain ⟨i, _, rfl⟩ := List.mem_map.mp hb
    simp [isExplain]

/-- Bootstrap correctness of a trace: exactly `nroles` table registrations, exactly
`nroles` view constructions, and no view construction precedes a table registration
(so every table registration precedes every view construction). -/
def bootstrapOK (nroles : Nat) (t : List Step) : Prop :=
  t.countP isCreateTable = nroles ∧ t.countP isCreateView = nroles ∧
  t.Pairwise (fun a b => ¬(isCreateView a = true ∧ isCreateTable b = true))

lemma benchTrace_bootstrapOK (roles : List Role) (o : RunOptions) :
    bootstrapOK roles.length (benchTrace roles o) :=
  ⟨benchTrace_countP_table roles o, benchTrace_countP_view roles o,
   benchTrace_tables_before_views roles o⟩

/-- C1: for every run, the reported mean latency equals the sum of the individually
measured iteration durations divided by the repeat count (a single duration when
`repeat = 1`), and only the timed query iterations contribute: the reported mean is
unchanged under any change to the durations of configuration, table registration,
view creation and plan inspection steps. -/
theorem mean_latency_is_sum_of_iterations_div_repeat
    (d : Step → ℚ) (roles : List Role) (o : RunOptions) (h : 1 ≤ o.repeat_count) :
    reportedMean d roles o
      = ((List.range o.repeat_count).map (fun i => d (Step.timedQuery i))).sum
          / (o.repeat_count : ℚ) ∧
    (o.repeat_count = 1 → reportedMean d roles o = d (Step.timedQuery 0)) ∧
    (∀ d' : Step → ℚ, (∀ i, d' (Step.timedQuery i) = d (Step.timedQuery i)) →
        reportedMean d' roles o = reportedMean d roles o) := by
  refine ⟨reportedMean_eq_sum_div d roles o, ?_, ?_⟩
  · intro h1
    rw [reportedMean_eq_sum_div, h1]
    have : List.range 1 = [0] := rfl
    simp [this]
  · intro d' hd
    rw [reportedMean_eq_sum_div, reportedMean_eq_sum_div]
    simp only [hd]

/-- Example duration assignment: iteration `i` takes `i + 1` seconds, every setup
step takes 100 seconds. -/
def dEx : Step → ℚ
  | Step.timedQuery i => (i : ℚ) + 1
  | _ => 100

/-- Example run options: GPU mode, two repetitions, four target partitions. -/
def oEx : RunOptions :=
  { mode_is_gpu := true, repeat_count := 2, target_partitions := Option.some 4 }

/-- Witness for C1 at a concrete run (q2's roles, repeat = 2). -/
theorem mean_latency_witness :
    1 ≤ oEx.repeat_count ∧
    reportedMean dEx [Role.zone, Role.trip] oEx
      = ((List.range oEx.repeat_count).map (fun i => dEx (Step.timedQuery i))).sum
          / (oEx.repeat_count : ℚ) :=
  ⟨by decide,
   (mean_latency_is_sum_of_iterations_div_repeat dEx [Role.zone, Role.trip] oEx (by decide)).1⟩

/-- C7: every one of the six run functions issues exactly `len(required_roles)`
external-table registrations and exactly `len(required_roles)` view constructions,
with every table registration preceding every view construction (q2/q4/q10/q11 use
roles zone+trip, q8 building+trip, q9 building only). -/
theorem bootstrap_counts_and_order (o : RunOptions) :
    bootstrapOK 2 (q2Trace o) ∧ bootstrapOK 2 (q4Trace o) ∧ bootstrapOK 2 (q8Trace o) ∧
    bootstrapOK 1 (q9Trace o) ∧ bootstrapOK 2 (q10Trace o) ∧ bootstrapOK 2 (q11Trace o) :=
  ⟨benchTrace_bootstrapOK [Role.zone, Role.trip] o,
   benchTrace_bootstrapOK [Role.zone, Role.trip] o,
   benchTrace_bootstrapOK [Role.building, Role.trip] o,
   benchTrace_bootstrapOK [Role.building] o,
   benchTrace_bootstrapOK [Role.zone, Role.trip] o,
   benchTrace_bootstrapOK [Role.zone, Role.trip] o⟩

/-- C8: in every invocation the plan-inspection (EXPLAIN) step occurs exactly once,
no timed query iteration precedes it (so it runs strictly before the timed loop and
never inside it), and the reported mean is independent of its duration: any two
duration assignments agreeing on the timed query iterations report the same mean. -/
theorem explain_once_before_timed_loop (roles : List Role) (o : RunOptions) :
    (benchTrace roles o).countP isExplain = 1 ∧
    (benchTrace roles o).Pairwise
      (fun a b => ¬(isTimedQuery a = true ∧ isExplain b = true)) ∧
    (∀ d d' : Step → ℚ, (∀ i, d (Step.timedQuery i) = d' (Step.timedQuery i)) →
        reportedMean d roles o = reportedMean d' roles o) := by
  refine ⟨benchTrace_countP_explain roles o, benchTrace_explain_before_queries roles o, ?_⟩
  intro d d' hd
  rw [reportedMean_eq_sum_div, reportedMean_eq_sum_div]
  simp only [hd]

/-! ### Row-limit clause construction (shared by all six scripts)

Every script builds its view statements with
`limit_clause = f"LIMIT {lim}" if lim else ""`, a Python truthiness test:
`None` and `0` both produce the empty clause. -/

/-- Python truthiness of an optional integer CLI argument: `None` and `0` are falsy. -/
def pyTruthy : Option Int → Bool
  | Option.none => false
  | Option.some n => n != 0

/-- The row-limit clause interpolated into a view statement:
`f"LIMIT {lim}" if lim else ""`. -/
def limit_clause (lim : Option Int) : String :=
  if pyTruthy lim then "LIMIT " ++ toString (lim.getD 0) else ""

/-- Engine semantics of the generated view statement as applied to the rows of its
source table: an empty clause keeps every source row, `LIMIT n` keeps the first `n`. -/
def viewRows {α : Type} (lim : Option Int) (src : List α) : List α :=
  if pyTruthy lim then src.take (lim.getD 0).toNat else src

/-- The per-run limits status line printed by q2.py (same text in q4/q10/q11 with
zone/trip, and with building/trip in q8): `Limits: zone=..., trip=...` when some
supplied limit is truthy, otherwise `No limits applied - using full dataset`. -/
def statusLine (zone_limit trip_limit : Option Int) : String :=
  if pyTruthy zone_limit || pyTruthy trip_limit then
    "Limits: zone="
      ++ (if pyTruthy zone_limit then toString (zone_limit.getD 0) else "none")
      ++ ", trip="
      ++ (if pyTruthy trip_limit then toString (trip_limit.getD 0) else "none")
  else
    "No limits applied - using full dataset"

/-- C3: when a role's row limit is omitted (`None`) the generated view statement
contains no LIMIT clause (the interpolated clause is the empty string), the view
yields at least as many rows as the same view built with any finite limit ≥ 1 on the
same source, and a nonempty source never yields zero rows without a limit. -/
theorem no_limit_means_unlimited_rows {α : Type} (src : List α) (k : Int) (hk : 1 ≤ k) :
    limit_clause Option.none = "" ∧
    (viewRows (Option.some k) src).length ≤ (viewRows Option.none src).length ∧
    (src ≠ [] → viewRows Option.none src ≠ []) := by
  refine ⟨rfl, ?_, ?_⟩
  · have hne : ¬ (k = 0) := by omega
    simp [viewRows, pyTruthy, hne, List.length_take]
  · intro hsrc
    simpa [viewRows, pyTruthy] using hsrc

/-- Witness for C3: a three-row source with limit 2. -/
theorem no_limit_means_unlimited_rows_witness :
    (1 : Int) ≤ 2 ∧
    limit_clause Option.none = "" ∧
    (viewRows (Option.some 2) [10, 20, 30]).length ≤ (viewRows Option.none [10, 20, 30]).length ∧
    viewRows Option.none [10, 20, 30] ≠ ([] : List Nat) := by
  have h := no_limit_means_unlimited_rows [10, 20, 30] 2 (by decide)
  exact ⟨by decide, h.1, h.2.1, h.2.2 (by decide)⟩

/-- C10: supplying a row limit of exactly `0` behaves like omitting it, because the
clause is built from a truthiness test: no LIMIT clause is emitted, the view keeps
every source row, and the status line reports `No limits applied` when all supplied
limits are 0. -/
theorem zero_limit_means_no_limit_clause {α : Type} (src : List α) :
    limit_clause (Option.some 0) = "" ∧
    viewRows (Option.some 0) src = src ∧
    statusLine (Option.some 0) (Option.some 0) = "No limits applied - using full dataset" :=
  ⟨rfl, rfl, rfl⟩

/-! ### The Q8 CLI driver's positional argument binding

`test_q8_with_external_tables` has positional parameters
`(data_prefix=None, mode='gpu', repeat=5, target_partitions=None, building_limit=None,
trip_limit=None)`, but the `__main__` block calls it as
`test_q8_with_external_tables(args.data_prefix, args.mode, args.partitions,
args.building_limit, args.trip_limit)` — five positional arguments, `args.repeat`
missing from the call. Python binds positionally with defaults for missing suffix
arguments. Dynamically-typed argument values are modelled by `PyVal`. -/

/-- An untyped Python argument value. -/
inductive PyVal where
  | none
  | str (s : String)
  | int (n : Int)
  deriving DecidableEq, Repr

/-- The bound parameters of `test_q8_with_external_tables` (`data_dir` stands for the
Python parameter named after the data path). -/
structure Q8Params where
  data_dir : PyVal
  mode : PyVal
  repeat_count : PyVal
  target_partitions : PyVal
  building_limit : PyVal
  trip_limit : PyVal
  deriving DecidableEq, Repr

/-- Python positional binding for `test_q8_with_external_tables`: the i-th positional
argument binds to the i-th parameter; parameters without a supplied argument take
their declared defaults (`data_prefix=None, mode='gpu', repeat=5,
target_partitions=None, building_limit=None, trip_limit=None`). -/
def bindQ8Positional (args : List PyVal) : Q8Params :=
  { data_dir := (args.get? 0).getD PyVal.none
    mode := (args.get? 1).getD (PyVal.str "gpu")
    repeat_count := (args.get? 2).getD (PyVal.int 5)
    target_partitions := (args.get? 3).getD PyVal.none
    building_limit := (args.get? 4).getD PyVal.none
    trip_limit := (args.get? 5).getD PyVal.none }

/-- The parsed command-line arguments of q8.py's `__main__` block. -/
structure Q8CliArgs where
  data_dir : PyVal
  mode : PyVal
  repeat_cli : PyVal
  partitions : PyVal
  building_limit : PyVal
  trip_limit : PyVal
  deriving DecidableEq, Repr

/-- The call the q8.py driver actually makes:
`test_q8_with_external_tables(args.data_prefix, args.mode, args.partitions,
args.building_limit, args.trip_limit)`. -/
def q8_driver_call (a : Q8CliArgs) : Q8Params :=
  bindQ8Positional [a.data_dir, a.mode, a.partitions, a.building_limit, a.trip_limit]

/-- The corrected call matching the function's parameter order:
`(args.data_prefix, args.mode, args.repeat, args.partitions, args.building_limit,
args.trip_limit)`. -/
def q8_corrected_call (a : Q8CliArgs) : Q8Params :=
  bindQ8Positional
    [a.data_dir, a.mode, a.repeat_cli, a.partitions, a.building_limit, a.trip_limit]

/-- Concrete CLI arguments for q8.py with pairwise-distinct values. -/
def q8ArgsEx : Q8CliArgs :=
  { data_dir := PyVal.str "sf1", mode := PyVal.str "cpu", repeat_cli := PyVal.int 7,
    partitions := PyVal.int 16, building_limit := PyVal.int 100,
    trip_limit := PyVal.int 200 }

/-- Counterexample to C2 as stated: in the q8.py driver call, the `mode` parameter
receives the CLI mode string (here `"cpu"`), not the partition count (here `16`):
mode and partitions are not swapped, so the partition count is never passed where a
mode string is expected. -/
theorem q8_mode_not_swapped_counterexample :
    (q8_driver_call q8ArgsEx).mode = PyVal.str "cpu" ∧
    (q8_driver_call q8ArgsEx).mode ≠ PyVal.int 16 ∧
    (q8_driver_call q8ArgsEx).repeat_count = PyVal.int 16 := by
  decide

/-- C2 amended: the q8.py driver omits `args.repeat` from the call, so the arguments
after `mode` are shifted one parameter to the left — `mode` is bound correctly, but
the partition count is passed where the repeat count is expected, the building limit
where the partition count is expected, the trip limit where the building limit is
expected, and `trip_limit` silently falls back to its default `None`; the corrected
mapping is `(data_prefix, mode, repeat, target_partitions, building_limit,
trip_limit)`. -/
theorem q8_driver_shifts_arguments (a : Q8CliArgs) :
    (q8_driver_call a).data_dir = a.data_dir ∧
    (q8_driver_call a).mode = a.mode ∧
    (q8_driver_call a).repeat_count = a.partitions ∧
    (q8_driver_call a).target_partitions = a.building_limit ∧
    (q8_driver_call a).building_limit = a.trip_limit ∧
    (q8_driver_call a).trip_limit = PyVal.none ∧
    (q8_corrected_call a).data_dir = a.data_dir ∧
    (q8_corrected_call a).mode = a.mode ∧
    (q8_corrected_call a).repeat_count = a.repeat_cli ∧
    (q8_corrected_call a).target_partitions = a.partitions ∧
    (q8_corrected_call a).building_limit = a.building_limit ∧
    (q8_corrected_call a).trip_limit = a.trip_limit := by
  refine ⟨rfl, rfl, rfl, rfl, rfl, rfl, rfl, rfl, rfl, rfl, rfl, rfl⟩

/-! ### Exception semantics of the timed loop (C9)

In Python, an exception raised by `ctx.sql(...)`/`result.show(...)` inside
`for _ in range(repeat)` propagates immediately: later iterations do not run and the
line computing and printing the mean latency is never reached. `exec i` models the
i-th iteration, returning its duration or raising an error. -/

/-- Run the loop body over the iteration list, collecting each iteration's measured
duration; the first raised error aborts the loop and propagates. -/
def runTimedLoop (exec : Nat → Except String ℚ) : List Nat → Except String (List ℚ)
  | [] => Except.ok []
  | i :: rest =>
    match exec i with
    | Except.error e => Except.error e
    | Except.ok dur =>
      match runTimedLoop exec rest with
      | Except.error e => Except.error e
      | Except.ok durs => Except.ok (dur :: durs)

/-- The iterations that actually execute: every iteration up to and including the
first failing one (all of them when none fails). -/
def executedIters (exec : Nat → Except String ℚ) : List Nat → List Nat
  | [] => []
  | i :: rest =>
    match exec i with
    | Except.error _ => [i]
    | Except.ok _ => i :: executedIters exec rest

/-- A complete run of the timed executor: run all `repeat` iterations; only if every
iteration succeeds, report the mean latency `(sum of durations) / repeat`. -/
def timedRun (exec : Nat → Except String ℚ) (rep : Nat) : Except String ℚ :=
  match runTimedLoop exec (List.range rep) with
  | Except.error e => Except.error e
  | Except.ok durs => Except.ok (durs.sum / (rep : ℚ))

lemma runTimedLoop_append_error (exec : Nat → Except String ℚ) (e : String)
    (pre : List Nat) (k : Nat) (post : List Nat)
    (hok : ∀ i ∈ pre, ∃ d, exec i = Except.ok d) (herr : exec k = Except.error e) :
    runTimedLoop exec (pre ++ k :: post) = Except.error e ∧
    executedIters exec (pre ++ k :: post) = pre ++ [k] := by
  induction pre with
  | nil => simp [runTimedLoop, executedIters, herr]
  | cons j pre ih =>
    obtain ⟨d, hd⟩ := hok j (List.mem_cons_self j pre)
    have ih2 := ih (fun i hi => hok i (List.mem_cons_of_mem j hi))
    simp [runTimedLoop, executedIters, hd, ih2.1, ih2.2]

lemma runTimedLoop_all_ok (exec : Nat → Except String ℚ) (l : List Nat)
    (hok : ∀ i ∈ l, ∃ d, exec i = Except.ok d) :
    (∃ durs, runTimedLoop exec l = Except.ok durs) ∧ executedIters exec l = l := by
  induction l with
  | nil => exact ⟨⟨[], rfl⟩, rfl⟩
  | cons j l ih =>
    obtain ⟨d, hd⟩ := hok j (List.mem_cons_self j l)
    obtain ⟨⟨durs, hdurs⟩, hex⟩ := ih (fun i hi => hok i (List.mem_cons_of_mem j hi))
    exact ⟨⟨d :: durs, by simp [runTimedLoop, hd, hdurs]⟩,
           by simp [executedIters, hd, hex]⟩

/-- C9: if iterations `0..k-1` succeed and iteration `k < repeat` fails, the run
reports that failure and no mean latency, and exactly the iterations `0..k` were
executed — the remaining `repeat - k - 1` iterations never run and no partial mean
is computed; conversely, when every iteration succeeds, all `repeat` iterations run
and a mean is reported. -/
theorem query_failure_aborts_run (exec : Nat → Except String ℚ) (rep k : Nat) (e : String)
    (hk : k < rep) (hok : ∀ i, i < k → ∃ d, exec i = Except.ok d)
    (herr : exec k = Except.error e) :
    timedRun exec rep = Except.error e ∧
    executedIters exec (List.range rep) = List.range (k + 1) ∧
    (∀ exec2 : Nat → Except String ℚ, (∀ i, i < rep → ∃ d, exec2 i = Except.ok d) →
        ∃ durs : List ℚ, timedRun exec2 rep = Except.ok (durs.sum / (rep : ℚ)) ∧
                executedIters exec2 (List.range rep) = List.range rep) := by
  have hsplit : List.range rep = List.range k ++ k :: (List.range (rep - k - 1)).map (fun x => (k + 1) + x) := by
    have h1 : rep = (k + 1) + (rep - k - 1) := by omega
    conv_lhs => rw [h1]
    rw [List.range_add, List.range_succ]
    simp
  have hpre : ∀ i ∈ List.range k, ∃ d, exec i = Except.ok d := by
    intro i hi
    exact hok i (List.mem_range.mp hi)
  have hmain := runTimedLoop_append_error exec e (List.range k) k
    ((List.range (rep - k - 1)).map (fun x => (k + 1) + x)) hpre herr
  refine ⟨?_, ?_, ?_⟩
  · unfold timedRun
    rw [hsplit, hmain.1]
  · rw [hsplit, hmain.2, ← List.range_succ]
  · intro exec2 hok2
    have hall : ∀ i ∈ List.range rep, ∃ d, exec2 i = Except.ok d := by
      intro i hi
      exact hok2 i (List.mem_range.mp hi)
    obtain ⟨⟨durs, hdurs⟩, hex⟩ := runTimedLoop_all_ok exec2 (List.range rep) hall
    exact ⟨durs, by simp [timedRun, hdurs], hex⟩

/-- Example iteration behavior: iterations 0 and 1 succeed, iteration 2 fails. -/
def execEx : Nat → Except String ℚ :=
  fun i => if i < 2 then Except.ok ((i : ℚ) + 1) else Except.error "query failed"

/-- Witness for C9: with `repeat = 5` and a failure at iteration 2, the run reports
the failure and only iterations 0, 1, 2 were executed. -/
theorem query_failure_aborts_run_witness :
    timedRun execEx 5 = Except.error "query failed" ∧
    executedIters execEx (List.range 5) = List.range 3 :=
  ⟨(query_failure_aborts_run execEx 5 2 "query failed" (by decide)
      (fun i hi => ⟨(i : ℚ) + 1, by simp [execEx, hi]⟩) rfl).1,
   (query_failure_aborts_run execEx 5 2 "query failed" (by decide)
      (fun i hi => ⟨(i : ℚ) + 1, by simp [execEx, hi]⟩) rfl).2.1⟩

/-! ### Geometry model

The spatial engine is external; its geometry operations are modelled over rasterized
geometries: a geometry is a finite set of unit grid cells, area is the cell count,
intersection is set intersection, `ST_Intersects` is nonempty intersection and
`ST_Within` is containment. These satisfy the measure-theoretic identities the
queries rely on (in particular `area (g ∩ g) = area g`). -/

/-- A rasterized geometry: a finite set of unit grid cells. -/
abbrev Geom := Finset (Int × Int)

/-- Model of `ST_Area`: the number of unit cells, as a rational. -/
def st_area (g : Geom) : ℚ := g.card

/-- Model of `ST_Intersection`: set intersection of the two cell sets. -/
def st_intersection (g h : Geom) : Geom := g ∩ h

/-- Model of `ST_Intersects`: the two geometries share at least one cell. -/
def st_intersects (g h : Geom) : Bool := decide (g ∩ h).Nonempty

/-- Model of `ST_Within`: every cell of `g` lies in `h`. -/
def st_within (g h : Geom) : Bool := decide (g ⊆ h)

/-! ### Relational model of the Q9 query (q9.py)

The timed query is
`WITH b1 AS (SELECT b_buildingkey AS id, geom FROM building_geom), b2 AS (...),
pairs AS (SELECT b1.id, b2.id, ST_Area(b1.geom), ST_Area(b2.geom),
ST_Area(ST_Intersection(b1.geom, b2.geom)) FROM b1 JOIN b2
ON b1.id < b2.id AND ST_Intersects(b1.geom, b2.geom))
SELECT ..., CASE WHEN (area1 + area2 - overlap_area) = 0 THEN 1.0
ELSE overlap_area / (area1 + area2 - overlap_area) END AS iou FROM pairs ...`. -/

/-- A row of the q9.py `building_geom` view: key and parsed geometry. -/
structure Building where
  b_buildingkey : Int
  geom : Geom
  deriving DecidableEq

/-- A row of Q9's `pairs` CTE. -/
structure Q9Row where
  building_1 : Int
  building_2 : Int
  area1 : ℚ
  area2 : ℚ
  overlap_area : ℚ
  deriving DecidableEq, Repr

/-- The `pairs` CTE: the self-join of the building view guarded by
`b1.id < b2.id AND ST_Intersects(b1.geom, b2.geom)`. -/
def q9Pairs (bs : List Building) : List Q9Row :=
  bs.flatMap fun b1 =>
    (bs.filter fun b2 =>
        decide (b1.b_buildingkey < b2.b_buildingkey) && st_intersects b1.geom b2.geom).map
      fun b2 =>
        { building_1 := b1.b_buildingkey
          building_2 := b2.b_buildingkey
          area1 := st_area b1.geom
          area2 := st_area b2.geom
          overlap_area := st_area (st_intersection b1.geom b2.geom) }

/-- The `iou` output column: `CASE WHEN (area1 + area2 - overlap_area) = 0 THEN 1.0
ELSE overlap_area / (area1 + area2 - overlap_area) END`. -/
def iou (r : Q9Row) : ℚ :=
  if r.area1 + r.area2 - r.overlap_area = 0 then 1
  else r.overlap_area / (r.area1 + r.area2 - r.overlap_area)

lemma mem_q9Pairs {bs : List Building} {r : Q9Row} :
    r ∈ q9Pairs bs ↔ ∃ b1 ∈ bs, ∃ b2 ∈ bs,
      b1.b_buildingkey < b2.b_buildingkey ∧ st_intersects b1.geom b2.geom = true ∧
      r = { building_1 := b1.b_buildingkey, building_2 := b2.b_buildingkey,
            area1 := st_area b1.geom, area2 := st_area b2.geom,
            overlap_area := st_area (st_intersection b1.geom b2.geom) } := by
  unfold q9Pairs
  simp only [List.mem_flatMap, List.mem_map, List.mem_filter, Bool.and_eq_true, decide_eq_true_eq]
  constructor
  · rintro ⟨b1, hb1, b2, ⟨hb2, hlt, hint⟩, rfl⟩
    exact ⟨b1, hb1, b2, hb2, hlt, hint, rfl⟩
  · rintro ⟨b1, hb1, b2, hb2, hlt, hint, rfl⟩
    exact ⟨b1, hb1, b2, ⟨hb2, hlt, hint⟩, rfl⟩

lemma q9Pairs_key_lt {bs : List Building} {r : Q9Row} (hr : r ∈ q9Pairs bs) :
    r.building_1 < r.building_2 := by
  obtain ⟨b1, _, b2, _, hlt, _, rfl⟩ := mem_q9Pairs.mp hr
  exact hlt

/-- C4: Q9's self-join emits no building paired with itself and never both `(A,B)`
and `(B,A)` for the same unordered pair, because of the `b1.id < b2.id` guard; and
for two distinct buildings with identical nonempty geometry the emitted pair's iou
equals exactly 1, computed by the ratio branch (its denominator is nonzero), while a
zero denominator is guarded to produce 1 rather than a division fault. -/
theorem q9_guard_and_identical_iou (bs : List Building) :
    (∀ r ∈ q9Pairs bs, r.building_1 ≠ r.building_2) ∧
    (∀ r ∈ q9Pairs bs, ∀ s ∈ q9Pairs bs,
        ¬(r.building_1 = s.building_2 ∧ r.building_2 = s.building_1)) ∧
    (∀ b1 b2 : Building, b1 ∈ bs → b2 ∈ bs → b1.b_buildingkey < b2.b_buildingkey →
        b1.geom = b2.geom → b1.geom.Nonempty →
        ∃ r ∈ q9Pairs bs, r.building_1 = b1.b_buildingkey ∧ r.building_2 = b2.b_buildingkey ∧
          r.area1 + r.area2 - r.overlap_area ≠ 0 ∧ iou r = 1) ∧
    (∀ r : Q9Row, r.area1 + r.area2 - r.overlap_area = 0 → iou r = 1) := by
  refine ⟨?_, ?_, ?_, ?_⟩
  · intro r hr
    exact ne_of_lt (q9Pairs_key_lt hr)
  · intro r hr s hs
    rintro ⟨h1, h2⟩
    have hlt1 := q9Pairs_key_lt hr
    have hlt2 := q9Pairs_key_lt hs
    omega
  · intro b1 b2 hb1 hb2 hlt hgeom hne
    have hint : st_intersects b1.geom b2.geom = true := by
      have hne2 : b2.geom.Nonempty := hgeom ▸ hne
      unfold st_intersects
      rw [hgeom]
      simpa using hne2
    refine ⟨_, mem_q9Pairs.mpr ⟨b1, hb1, b2, hb2, hlt, hint, rfl⟩, rfl, rfl, ?_, ?_⟩
    all_goals
      have hcard : (0 : ℚ) < (b1.geom.card : ℚ) := by
        have := Finset.card_pos.mpr hne
        exact_mod_cast this
      simp only [st_area, st_intersection, hgeom, Finset.inter_self]
    · intro h0
      rw [show (b2.geom.card : ℚ) + (b2.geom.card : ℚ) - (b2.geom.card : ℚ)
            = (b2.geom.card : ℚ) by ring] at h0
      rw [hgeom] at hcard
      exact absurd h0 (ne_of_gt hcard)
    · unfold iou
      simp only [st_area, st_intersection, hgeom, Finset.inter_self]
      rw [show (b2.geom.card : ℚ) + (b2.geom.card : ℚ) - (b2.geom.card : ℚ)
            = (b2.geom.card : ℚ) by ring]
      rw [hgeom] at hcard
      rw [if_neg (ne_of_gt hcard)]
      exact div_self (ne_of_gt hcard)
  · intro r h0
    unfold iou
    rw [if_pos h0]

/-- Two buildings with identical one-cell geometry (and a disjoint third). -/
def buildingsEx : List Building :=
  [{ b_buildingkey := 1, geom := {(0, 0)} },
   { b_buildingkey := 2, geom := {(0, 0)} },
   { b_buildingkey := 3, geom := {(7, 7)} }]

/-- Witness for C4: buildings 1 and 2 have identical nonempty geometry, so the pair
(1, 2) is emitted with iou exactly 1 through a nonzero denominator. -/
theorem q9_guard_and_identical_iou_witness :
    ∃ r ∈ q9Pairs buildingsEx, r.building_1 = 1 ∧ r.building_2 = 2 ∧
      r.area1 + r.area2 - r.overlap_area ≠ 0 ∧ iou r = 1 :=
  (q9_guard_and_identical_iou buildingsEx).2.2.1
    { b_buildingkey := 1, geom := {(0, 0)} } { b_buildingkey := 2, geom := {(0, 0)} }
    (by decide) (by decide) (by decide) (by decide) (by decide)

/-! ### Relational model of Q4's top-N sub-selection (q4.py)

The timed query joins against
`(SELECT t.geom FROM trip_geom t ORDER BY t.t_tip DESC, t.t_tripkey ASC LIMIT top_n)`.
`ORDER BY t_tip DESC, t_tripkey ASC` is the total preorder `q4Le` below; the SQL
LIMIT then keeps the first `top_n` rows of the sorted relation. -/

/-- A row of the q4.py `trip_geom` view: key, tip amount and parsed pickup point. -/
structure TripRow where
  t_tripkey : Int
  t_tip : ℚ
  geom : Geom
  deriving DecidableEq

/-- The Q4 ordering `ORDER BY t_tip DESC, t_tripkey ASC`: `a` sorts no later than
`b` iff `a` has the larger tip, or equal tips and `a`'s key is no larger. -/
def q4Le (a b : TripRow) : Prop :=
  b.t_tip < a.t_tip ∨ (a.t_tip = b.t_tip ∧ a.t_tripkey ≤ b.t_tripkey)

lemma q4Le_def (a b : TripRow) :
    q4Le a b ↔ b.t_tip < a.t_tip ∨ (a.t_tip = b.t_tip ∧ a.t_tripkey ≤ b.t_tripkey) :=
  Iff.rfl

instance : DecidableRel q4Le := fun a b => by
  unfold q4Le
  infer_instance

instance : IsTotal TripRow q4Le :=
  ⟨by
    intro a b
    unfold q4Le
    rcases lt_trichotomy a.t_tip b.t_tip with h | h | h
    · exact Or.inr (Or.inl h)
    · rcases Int.le_total a.t_tripkey b.t_tripkey with hk | hk
      · exact Or.inl (Or.inr ⟨h, hk⟩)
      · exact Or.inr (Or.inr ⟨h.symm, hk⟩)
    · exact Or.inl (Or.inl h)⟩

instance : IsTrans TripRow q4Le :=
  ⟨by
    intro a b c hab hbc
    unfold q4Le at hab hbc ⊢
    rcases hab with hab | ⟨hab1, hab2⟩ <;> rcases hbc with hbc | ⟨hbc1, hbc2⟩
    · exact Or.inl (hbc.trans hab)
    · exact Or.inl (hbc1 ▸ hab)
    · exact Or.inl (hab1 ▸ hbc)
    · exact Or.inr ⟨hab1.trans hbc1, hab2.trans hbc2⟩⟩

/-- The sorted sub-selection of Q4 before the LIMIT. -/
def q4SortedTrips (trips : List TripRow) : List TripRow :=
  List.insertionSort q4Le trips

/-- Q4's `top_trips` sub-selection: the first `top_n` rows of the sorted relation. -/
def q4TopTrips (trips : List TripRow) (top_n : Nat) : List TripRow :=
  (q4SortedTrips trips).take top_n

/-- C6: in Q4's top-N sub-selection, two rows with identical tip value are ordered
by ascending trip key — whenever row `i` of the sorted relation has the same tip as
row `j` but a smaller key, then `i` comes first — and the top-N cutoff is exactly
the `top_n`-prefix of that deterministically ordered relation. -/
theorem q4_ties_broken_by_ascending_key (trips : List TripRow) (top_n i j : Nat)
    (hi : i < (q4SortedTrips trips).length) (hj : j < (q4SortedTrips trips).length)
    (htip : ((q4SortedTrips trips).get ⟨i, hi⟩).t_tip
              = ((q4SortedTrips trips).get ⟨j, hj⟩).t_tip)
    (hkey : ((q4SortedTrips trips).get ⟨i, hi⟩).t_tripkey
              < ((q4SortedTrips trips).get ⟨j, hj⟩).t_tripkey) :
    i < j ∧ q4TopTrips trips top_n = (q4SortedTrips trips).take top_n := by
  refine ⟨?_, rfl⟩
  by_contra hij
  push_neg at hij
  rcases Nat.lt_or_ge j i with hji | hji
  · have hs : List.Sorted q4Le (q4SortedTrips trips) := List.sorted_insertionSort q4Le trips
    have hrel := hs.rel_get_of_lt (show (⟨j, hj⟩ : Fin (q4SortedTrips trips).length) < ⟨i, hi⟩ from hji)
    rw [q4Le_def] at hrel
    rcases hrel with hrel | ⟨hrel1, hrel2⟩
    · rw [htip] at hrel
      exact absurd hrel (lt_irrefl _)
    · omega
  · have : i = j := by omega
    subst this
    exact absurd hkey (lt_irrefl _)

/-- Two trips with the same tip and distinct keys (key 2 listed first). -/
def tripsEx4 : List TripRow :=
  [{ t_tripkey := 2, t_tip := 5, geom := {(0, 0)} },
   { t_tripkey := 1, t_tip := 5, geom := {(3, 3)} }]

/-- Witness for C6: in the sorted sub-selection of `tripsEx4`, the row with key 1
(same tip 5, smaller key) sorts strictly before the row with key 2. -/
theorem q4_ties_broken_by_ascending_key_witness :
    0 < 1 ∧ q4TopTrips tripsEx4 1 = (q4SortedTrips tripsEx4).take 1 :=
  q4_ties_broken_by_ascending_key tripsEx4 1 0 1 (by decide) (by decide) (by decide) (by decide)

/-! ### Relational model of the Q10 query (q10.py)

The timed query is
`SELECT z.z_zonekey, z.z_name AS pickup_zone, AVG(t.t_dropofftime - t.t_pickuptime)
AS avg_duration, AVG(t.t_distance) AS avg_distance, COUNT(t.t_tripkey) AS num_trips
FROM zone_geom z LEFT JOIN trip_geom t ON ST_Within(t.geom, z.geom)
GROUP BY z.z_zonekey, z.z_name
ORDER BY avg_duration DESC NULLS LAST, z.z_zonekey ASC`. -/

/-- A row of the q10.py `zone_geom` view. -/
structure Zone where
  z_zonekey : Int
  z_name : String
  geom : Geom
  deriving DecidableEq

/-- A row of the q10.py `trip_geom` view. -/
structure Trip where
  t_tripkey : Int
  t_pickuptime : ℚ
  t_dropofftime : ℚ
  t_distance : ℚ
  geom : Geom
  deriving DecidableEq

/-- The trips whose pickup point lies within a zone (`ON ST_Within(t.geom, z.geom)`). -/
def q10Matches (trips : List Trip) (z : Zone) : List Trip :=
  trips.filter fun t => st_within t.geom z.geom

/-- LEFT JOIN rows contributed by one zone: its matching trips, or a single
null-extended row when no trip matches (left-preserving semantics). -/
def q10RowsOf (trips : List Trip) (z : Zone) : List (Zone × Option Trip) :=
  if q10Matches trips z = [] then [(z, Option.none)]
  else (q10Matches trips z).map fun t => (z, Option.some t)

/-- The full LEFT JOIN relation `zone_geom LEFT JOIN trip_geom ON ST_Within`. -/
def q10JoinRows (zones : List Zone) (trips : List Trip) : List (Zone × Option Trip) :=
  zones.flatMap (q10RowsOf trips)

/-- An output row of the Q10 query. SQL `AVG` over an all-null group is NULL
(`Option.none`), and `COUNT(t.t_tripkey)` counts only non-null trip keys. -/
structure Q10Row where
  z_zonekey : Int
  pickup_zone : String
  avg_duration : Option ℚ
  avg_distance : Option ℚ
  num_trips : Nat
  deriving DecidableEq

/-- The `GROUP BY z.z_zonekey, z.z_name` keys: the distinct (key, name) pairs of the
zone view (every zone reaches the join output, so these are the group keys). -/
def q10GroupKeys (zones : List Zone) : List (Int × String) :=
  (zones.map fun z => (z.z_zonekey, z.z_name)).dedup

/-- Aggregation of one group: collect the group's join rows, drop null trip sides,
and compute `AVG(dropoff - pickup)`, `AVG(distance)` (NULL on an empty set) and
`COUNT(t_tripkey)`. -/
def q10Aggregate (rows : List (Zone × Option Trip)) (key : Int × String) : Q10Row :=
  let ts := (rows.filter fun r => r.1.z_zonekey == key.1 && r.1.z_name == key.2).filterMap
              fun r => r.2
  { z_zonekey := key.1
    pickup_zone := key.2
    avg_duration :=
      if ts.length = 0 then Option.none
      else Option.some ((ts.map fun t => t.t_dropofftime - t.t_pickuptime).sum / (ts.length : ℚ))
    avg_distance :=
      if ts.length = 0 then Option.none
      else Option.some ((ts.map fun t => t.t_distance).sum / (ts.length : ℚ))
    num_trips := ts.length }

/-- The ordering `ORDER BY avg_duration DESC NULLS LAST, z.z_zonekey ASC`, as a
boolean total preorder: a NULL mean duration sorts after every non-NULL one, larger
mean durations sort first, and ties are broken by ascending zone key. -/
def q10LeB (a b : Q10Row) : Bool :=
  match a.avg_duration, b.avg_duration with
  | Option.none, Option.none => decide (a.z_zonekey ≤ b.z_zonekey)
  | Option.none, Option.some _ => false
  | Option.some _, Option.none => true
  | Option.some x, Option.some y =>
      decide (y < x) || (decide (x = y) && decide (a.z_zonekey ≤ b.z_zonekey))

/-- Propositional form of `q10LeB`, used as the sort relation. -/
def q10Le (a b : Q10Row) : Prop := q10LeB a b = true

instance : DecidableRel q10Le := fun a b => by
  unfold q10Le
  infer_instance

instance : IsTotal Q10Row q10Le :=
  ⟨by
    intro a b
    unfold q10Le q10LeB
    rcases hx : a.avg_duration with _ | x <;> rcases hy : b.avg_duration with _ | y <;>
      simp only [hx, hy]
    · rcases Int.le_total a.z_zonekey b.z_zonekey with h | h <;> simp [h]
    · simp
    · simp
    · rcases lt_trichotomy x y with h | h | h
      · simp [h]
      · subst h
        rcases Int.le_total a.z_zonekey b.z_zonekey with h | h <;> simp [h]
      · simp [h]⟩

instance : IsTrans Q10Row q10Le :=
  ⟨by
    intro a b c hab hbc
    unfold q10Le q10LeB at hab hbc ⊢
    rcases hx : a.avg_duration with _ | x <;> rcases hy : b.avg_duration with _ | y <;>
      rcases hz : c.avg_duration with _ | z <;>
      simp only [hx, hy, hz] at hab hbc ⊢ <;>
      simp_all
    · omega
    · rcases hab with hab | ⟨hab1, hab2⟩ <;> rcases hbc with hbc | ⟨hbc1, hbc2⟩
      · exact Or.inl (hbc.trans hab)
      · exact Or.inl (hbc1 ▸ hab)
      · exact Or.inl (hab1 ▸ hbc)
      · exact Or.inr ⟨hab1.trans hbc1, hab2.trans hbc2⟩⟩

/-- The Q10 output before ORDER BY: one aggregated row per group key. -/
def q10Unsorted (zones : List Zone) (trips : List Trip) : List Q10Row :=
  (q10GroupKeys zones).map (q10Aggregate (q10JoinRows zones trips))

/-- The Q10 output: aggregated rows sorted by
`avg_duration DESC NULLS LAST, z_zonekey ASC`. -/
def q10Result (zones : List Zone) (trips : List Trip) : List Q10Row :=
  List.insertionSort q10Le (q10Unsorted zones trips)

lemma q10RowsOf_fst (trips : List Trip) (z : Zone) :
    ∀ r ∈ q10RowsOf trips z, r.1 = z := by
  intro r hr
  unfold q10RowsOf at hr
  split at hr
  · simp at hr
    rw [hr]
  · obtain ⟨t, _, rfl⟩ := List.mem_map.mp hr
    rfl

lemma q10_filter_self (trips : List Trip) (z : Zone) :
    (q10RowsOf trips z).filter
        (fun r => r.1.z_zonekey == z.z_zonekey && r.1.z_name == z.z_name)
      = q10RowsOf trips z := by
  apply List.filter_eq_self.mpr
  intro r hr
  rw [q10RowsOf_fst trips z r hr]
  simp

lemma q10_filter_other (trips : List Trip) (z z' : Zone) (hne : z'.z_zonekey ≠ z.z_zonekey) :
    (q10RowsOf trips z').filter
        (fun r => r.1.z_zonekey == z.z_zonekey && r.1.z_name == z.z_name)
      = [] := by
  apply List.filter_eq_nil_iff.mpr
  intro r hr
  rw [q10RowsOf_fst trips z' r hr]
  simp [hne]

lemma q10_grp_eq (zones : List Zone) (trips : List Trip)
    (hkeys : (zones.map Zone.z_zonekey).Nodup) (z : Zone) (hz : z ∈ zones) :
    (q10JoinRows zones trips).filter
        (fun r => r.1.z_zonekey == z.z_zonekey && r.1.z_name == z.z_name)
      = q10RowsOf trips z := by
  unfold q10JoinRows
  induction zones with
  | nil => cases hz
  | cons w rest ih =>
    rw [List.flatMap_cons, List.filter_append]
    rw [List.map_cons, List.nodup_cons] at hkeys
    rcases List.mem_cons.mp hz with rfl | hz2
    · rw [q10_filter_self]
      have hrest : (rest.flatMap (q10RowsOf trips)).filter
          (fun r => r.1.z_zonekey == z.z_zonekey && r.1.z_name == z.z_name) = [] := by
        apply List.filter_eq_nil_iff.mpr
        intro r hr
        obtain ⟨w', hw', hrw'⟩ := List.mem_flatMap.mp hr
        rw [q10RowsOf_fst trips w' r hrw']
        have hne : w'.z_zonekey ≠ z.z_zonekey := by
          intro heq
          exact hkeys.1 (heq ▸ List.mem_map_of_mem Zone.z_zonekey hw')
        simp [hne]
      rw [hrest, List.append_nil]
    · have hw : w.z_zonekey ≠ z.z_zonekey := by
        intro heq
        apply hkeys.1
        rw [heq]
        exact List.mem_map_of_mem Zone.z_zonekey hz2
      rw [q10_filter_other trips z w hw, List.nil_append]
      exact ih hkeys.2 hz2

lemma q10Aggregate_no_matches (zones : List Zone) (trips : List Trip)
    (hkeys : (zones.map Zone.z_zonekey).Nodup) (z : Zone) (hz : z ∈ zones)
    (hmat : q10Matches trips z = []) :
    q10Aggregate (q10JoinRows zones trips) (z.z_zonekey, z.z_name)
      = { z_zonekey := z.z_zonekey, pickup_zone := z.z_name,
          avg_duration := Option.none, avg_distance := Option.none, num_trips := 0 } := by
  unfold q10Aggregate
  have hgrp := q10_grp_eq zones trips hkeys z hz
  simp only [hgrp]
  rw [q10RowsOf, if_pos hmat]
  simp

/-- C5: with pairwise-distinct zone keys, Q10's output contains exactly one row per
zone; a zone with zero matching trips appears with NULL mean duration and distance
and trip count 0; and the NULLS LAST ordering puts every NULL-duration row (in
particular every zero-trip zone) after every row with at least one trip: once a row
with NULL `avg_duration` appears, all later rows have NULL `avg_duration` too. -/
theorem q10_every_zone_once_and_nulls_last (zones : List Zone) (trips : List Trip)
    (hkeys : (zones.map Zone.z_zonekey).Nodup) :
    (∀ z ∈ zones,
        ((q10Result zones trips).filter fun r => r.z_zonekey == z.z_zonekey).length = 1) ∧
    (∀ z ∈ zones, q10Matches trips z = [] →
        ∃ r ∈ q10Result zones trips, r.z_zonekey = z.z_zonekey ∧
          r.avg_duration = Option.none ∧ r.avg_distance = Option.none ∧ r.num_trips = 0) ∧
    (q10Result zones trips).Pairwise
      (fun a b => a.avg_duration = Option.none → b.avg_duration = Option.none) := by
  have hkp : (zones.map fun z => (z.z_zonekey, z.z_name)).Nodup := by
    apply List.Nodup.of_map Prod.fst
    rw [List.map_map]
    exact hkeys
  have hgk : q10GroupKeys zones = zones.map fun z => (z.z_zonekey, z.z_name) := by
    unfold q10GroupKeys
    exact List.dedup_eq_self.mpr hkp
  have hperm : (q10Result zones trips).Perm (q10Unsorted zones trips) :=
    List.perm_insertionSort q10Le (q10Unsorted zones trips)
  refine ⟨?_, ?_, ?_⟩
  · intro z hz
    rw [← List.countP_eq_length_filter, hperm.countP_eq]
    unfold q10Unsorted
    rw [hgk, List.map_map, List.countP_map]
    have hcount : List.countP (fun w => w.z_zonekey == z.z_zonekey) zones = 1 := by
      have h1 : List.countP (fun w => w.z_zonekey == z.z_zonekey) zones
          = List.count z.z_zonekey (zones.map Zone.z_zonekey) := by
        rw [List.count, List.countP_map]
        rfl
      rw [h1]
      exact List.count_eq_one_of_mem hkeys (List.mem_map_of_mem Zone.z_zonekey hz)
    exact hcount
  · intro z hz hmat
    refine ⟨q10Aggregate (q10JoinRows zones trips) (z.z_zonekey, z.z_name), ?_, ?_⟩
    · apply hperm.mem_iff.mpr
      unfold q10Unsorted
      rw [hgk, List.map_map]
      exact List.mem_map_of_mem _ hz
    · rw [q10Aggregate_no_matches zones trips hkeys z hz hmat]
      exact ⟨rfl, rfl, rfl, rfl⟩
  · have hs : List.Sorted q10Le (q10Result zones trips) :=
      List.sorted_insertionSort q10Le (q10Unsorted zones trips)
    apply List.Pairwise.imp ?_ hs
    intro a b hab hna
    unfold q10Le q10LeB at hab
    rcases hb : b.avg_duration with _ | y
    · rfl
    · rw [hna, hb] at hab
      simp at hab

/-- Zone A: two cells around the origin. -/
def zoneAEx : Zone := { z_zonekey := 1, z_name := "A", geom := {(0, 0), (1, 0)} }

/-- Zone B: a single far-away cell, inside which no trip starts. -/
def zoneBEx : Zone := { z_zonekey := 2, z_name := "B", geom := {(5, 5)} }

/-- The two example zones. -/
def zonesEx : List Zone := [zoneAEx, zoneBEx]

/-- Three example trips: two start inside zone A, one starts outside all zones. -/
def tripsEx : List Trip :=
  [{ t_tripkey := 1, t_pickuptime := 0, t_dropofftime := 10, t_distance := 3, geom := {(0, 0)} },
   { t_tripkey := 2, t_pickuptime := 5, t_dropofftime := 9, t_distance := 4, geom := {(1, 0)} },
   { t_tripkey := 3, t_pickuptime := 1, t_dropofftime := 2, t_distance := 1, geom := {(9, 9)} }]

/-- Witness for C5: zone B has no matching trip, and the Q10 output contains a row
for it with NULL aggregates and trip count 0. -/
theorem q10_every_zone_once_and_nulls_last_witness :
    (zonesEx.map Zone.z_zonekey).Nodup ∧
    ∃ r ∈ q10Result zonesEx tripsEx, r.z_zonekey = zoneBEx.z_zonekey ∧
      r.avg_duration = Option.none ∧ r.avg_distance = Option.none ∧ r.num_trips = 0 :=
  ⟨by decide,
   (q10_every_zone_once_and_nulls_last zonesEx tripsEx (by decide)).2.1 zoneBEx
     (by decide) (by decide)⟩

end SedonaBench
